import Mathlib

/-!
Verification development for the hikari-wave voice client core.

Shallow embedding of the Python sources:
  - `src/hikariwave/internal/constants.py`  (codec constants)
  - `src/hikariwave/audio/player.py`        (AudioPlayer: RTP build, AEAD framing,
                                             counters, silence, queue/history loop)
  - `src/hikariwave/audio/store.py`         (FrameStore: live buffer, disk spill,
                                             EOS sentinel)
  - `src/hikariwave/audio/ffmpeg.py`        (FFmpegWorker Ogg-Opus parsing,
                                             FFmpegPool worker accounting)
  - `src/hikariwave/connection.py`          (encryption-mode negotiation)

Bytes are modelled as `Nat` values (< 256 in well-formed data), byte strings as
`List Nat`.  Stateful code is modelled by explicit state records with step
functions over event alphabets; interleaving of the asyncio tasks is modelled
by the order of events in a trace.
-/

namespace HikariWave

/-! ## Constants (`internal/constants.py`, values used by `player.py`) -/

/-- `FRAME_LENGTH = 20` - the duration (ms) of each frame. -/
def FRAME_LENGTH : Nat := 20

/-- `BIT_16 = 65536` - modulus for the 16-bit RTP sequence counter. -/
def BIT_16U : Nat := 65536

/-- `BIT_32 = 4294967296` - modulus for the 32-bit timestamp and nonce counters. -/
def BIT_32U : Nat := 4294967296

/-- `SAMPLES_PER_FRAME = 960` - 48 kHz, 20 ms: the per-frame timestamp increment. -/
def SAMPLES_PER_FRAME : Nat := 960

/-! ## Byte packing (`struct.pack(">H")` / `struct.pack(">I")`) -/

/-- Big-endian 2-byte encoding of a natural number (as `struct.pack(">H", n)`,
well-defined for `n < 2^16`). -/
def packUint16BE (n : Nat) : List Nat := [n / 256 % 256, n % 256]

/-- Big-endian 4-byte encoding of a natural number (as `struct.pack(">I", n)`,
well-defined for `n < 2^32`). -/
def packUint32BE (n : Nat) : List Nat :=
  [n / 16777216 % 256, n / 65536 % 256, n / 256 % 256, n % 256]

/-! ## RTP header (`AudioPlayer._generate_rtp`) -/

/-- `AudioPlayer._generate_rtp`: a 12-byte header `0x80, 0x78`, sequence (u16 BE),
timestamp (u32 BE), ssrc (u32 BE). -/
def generate_rtp (sequence timestamp ssrc : Nat) : List Nat :=
  0x80 :: 0x78 :: (packUint16BE sequence ++ packUint32BE timestamp ++ packUint32BE ssrc)

/-! ## AEAD encryption (`AudioPlayer._encrypt_aead_xchacha20_poly1305_rtpsize`)

The XChaCha20-Poly1305 primitive itself lives in the external PyNaCl/libsodium
library, so it is a parameter of the model: an `AeadScheme` provides the
ciphertext part (same length as the plaintext), the authentication tag, and the
decryption function on the combined ciphertext-plus-tag, each taking
(key, nonce, associated data) arguments. -/

structure AeadScheme where
  encC : List Nat → List Nat → List Nat → List Nat → List Nat
  encT : List Nat → List Nat → List Nat → List Nat → List Nat
  dec : List Nat → List Nat → List Nat → List Nat → Option (List Nat)

/-- The 24-byte nonce used by the player: bytes 0..4 hold the counter (u32 BE),
bytes 4..24 are zero (`nonce = bytearray(24); nonce[:4] = pack(">I", self.nonce)`). -/
def xchachaNonce (counter : Nat) : List Nat := packUint32BE counter ++ List.replicate 20 0

/-- `AudioPlayer._encrypt_aead_xchacha20_poly1305_rtpsize`: returns the UDP
payload `header ++ ciphertext ++ tag ++ nonce[:4]` together with the updated
nonce counter `(nonce + 1) % BIT_32U`.  `box.encrypt(audio, header, nonce)
.ciphertext` is the combined ciphertext-plus-tag of the scheme. -/
def encrypt_aead_xchacha20_poly1305_rtpsize (aead : AeadScheme) (key : List Nat)
    (nonceCtr : Nat) (header audio : List Nat) : List Nat × Nat :=
  let nonce := xchachaNonce nonceCtr
  (header ++ aead.encC key nonce header audio ++ aead.encT key nonce header audio
     ++ packUint32BE nonceCtr,
   (nonceCtr + 1) % BIT_32U)

/-- Decryption procedure described by the spec for `aead_xchacha20_poly1305_rtpsize`
packets: associated data is the leading 12-byte header, the nonce is the trailing
4-byte counter extended with a 20-byte zero tail, and the middle is the combined
ciphertext-plus-tag. -/
def rtpsizeDecode (aead : AeadScheme) (key pkt : List Nat) : Option (List Nat) :=
  let header := pkt.take 12
  let body := pkt.drop 12
  let combined := body.take (body.length - 4)
  let tail4 := body.drop (body.length - 4)
  aead.dec key (tail4 ++ List.replicate 20 0) header combined

/-! ## Player send loop (`AudioPlayer._play_internal` send path, `_send_silence`)

The mutable counter state of one `AudioPlayer`; `__init__` sets all three to 0
and nothing else in `player.py` ever resets them. -/

structure PlayerState where
  sequence : Nat
  timestamp : Nat
  nonce : Nat
deriving DecidableEq

/-- A datagram written to the UDP transport: either an encrypted audio frame
(annotated with the counter values it was built from) or a raw silence payload. -/
inductive Udp
  | audio (seq ts nonceCtr : Nat) (pkt : List Nat)
  | silence (payload : List Nat)
deriving DecidableEq

/-- The Discord Opus silence payload `b"\xF8\xFF\xFE"`. -/
def silencePayload : List Nat := [0xF8, 0xFF, 0xFE]

/-- `AudioPlayer._send_silence`: `for _ in range(5): await self.connection.server
.send(b"\xF8\xFF\xFE")` - five raw sends, no RTP header, no encryption, and no
access to the player's counters. -/
def send_silence : List Udp :=
  (List.range 5).foldl (fun out _ => out ++ [Udp.silence silencePayload]) []

/-- Events observed by the player's counter state, in scheduler order:
`frame` is one loop iteration of `_play_internal` that sends an audio frame;
`pauseWait` is the paused branch (silence burst, then wait on `_resumed`);
`trackStart` is `_play_internal` entry (clears `_ended`/`_skip`/`_track_completed`);
`trackEnd` is the `finally` block (silence burst, speaking off).  Neither
boundary event touches `sequence`, `timestamp` or `nonce` in the source. -/
inductive PlayerEv
  | frame (opus : List Nat)
  | pauseWait
  | trackStart
  | trackEnd
deriving DecidableEq

/-- One event of the player: the `frame` case builds the header with
`_generate_rtp`, encrypts with `_encrypt_aead_xchacha20_poly1305_rtpsize`
(which advances the nonce counter), sends, then advances `sequence` mod 2^16
and `timestamp` by `SAMPLES_PER_FRAME` mod 2^32. -/
def playerStep (aead : AeadScheme) (key : List Nat) (ssrc : Nat) (s : PlayerState) :
    PlayerEv → PlayerState × List Udp
  | .frame opus =>
      let header := generate_rtp s.sequence s.timestamp ssrc
      let enc := encrypt_aead_xchacha20_poly1305_rtpsize aead key s.nonce header opus
      ({ sequence := (s.sequence + 1) % BIT_16U,
         timestamp := (s.timestamp + SAMPLES_PER_FRAME) % BIT_32U,
         nonce := enc.2 },
       [.audio s.sequence s.timestamp s.nonce enc.1])
  | .pauseWait => (s, send_silence)
  | .trackStart => (s, [])
  | .trackEnd => (s, send_silence)

/-- Run a whole event trace, concatenating the UDP datagrams in send order. -/
def runPlayer (aead : AeadScheme) (key : List Nat) (ssrc : Nat) :
    PlayerState → List PlayerEv → PlayerState × List Udp
  | s, [] => (s, [])
  | s, e :: evs =>
      let step := playerStep aead key ssrc s e
      let rest := runPlayer aead key ssrc step.1 evs
      (rest.1, step.2 ++ rest.2)

/-- The (sequence, timestamp, nonce counter) triple carried by an audio send;
silence sends carry none. -/
def audioMeta : Udp → Option (Nat × Nat × Nat)
  | .audio seq ts n _ => some (seq, ts, n)
  | .silence _ => none

/-- Relation between the counter triples of two consecutive audio sends claimed
by the spec: `+1 mod 2^16`, `+960 mod 2^32`, `+1 mod 2^32`. -/
def counterStep (a b : Nat × Nat × Nat) : Prop :=
  b.1 = (a.1 + 1) % BIT_16U ∧ b.2.1 = (a.2.1 + SAMPLES_PER_FRAME) % BIT_32U ∧
    b.2.2 = (a.2.2 + 1) % BIT_32U

/-! ## Track termination and history (`_play_internal` control flow, `_player_loop`)

`_play_internal`'s loop is driven by the frame source and by concurrent commands
that set the `_skip`/`_ended` events; one `LoopEv` is one loop iteration or one
command landing between iterations. -/

inductive LoopEv
  | frame
  | eosFrame
  | opusEmpty
  | cmdSkip
  | cmdStop
  | raiseErr
deriving DecidableEq

/-- The flags of one `_play_internal` run. -/
structure PlayFlags where
  skip : Bool
  ended : Bool
  track_completed : Bool
deriving DecidableEq

/-- The statement after the `while` loop (still inside `try`):
`if self._skip.is_set() and not self._ended.is_set(): self._track_completed = False`. -/
def adjustAfterLoop (fl : PlayFlags) : PlayFlags :=
  if fl.skip && !fl.ended then { fl with track_completed := false } else fl

/-- `AudioPlayer._play_internal` control flow.  Result: `none` when the trace does
not terminate the track, otherwise `some (r, flags)` where `r` is the Python
return value - `none` models the implicit `None` of falling off the function
(there is no `return True` anywhere in the source), `some false` the
`return False` of the `except` branch. -/
def runTrack : List LoopEv → PlayFlags → Option (Option Bool × PlayFlags)
  | evs, fl =>
    if fl.ended || fl.skip then some (none, adjustAfterLoop fl)
    else
      match evs with
      | [] => none
      | .frame :: rest => runTrack rest fl
      | .eosFrame :: _ => some (none, adjustAfterLoop { fl with track_completed := true })
      | .opusEmpty :: _ => some (none, adjustAfterLoop fl)
      | .cmdSkip :: rest => runTrack rest { fl with skip := true }
      | .cmdStop :: rest => runTrack rest { fl with skip := true, ended := true }
      | .raiseErr :: _ => some (some false, fl)

/-- Python truthiness of `_play_internal`'s return value as used by
`_player_loop`'s `if completed or ...`. -/
def pythonTruthy : Option Bool → Bool
  | none => false
  | some b => b

/-- `AudioPlayer._player_loop` after `completed = await self._play_internal(source)`:
the source is appended to `_history` iff
`completed or (self._skip.is_set() and not self._ended.is_set())`. -/
def historyAppend (evs : List LoopEv) : Option Bool :=
  match runTrack evs ⟨false, false, false⟩ with
  | none => none
  | some (ret, fl) => some (pythonTruthy ret || (fl.skip && !fl.ended))

/-! ## Frame store (`audio/store.py`)

`asyncio.Queue` is a FIFO: `put` appends at the back, `get` pops the front.
The `wavecache/` directory is modelled as an association list from file index
to file bytes.  `_read_chunk` runs as a task created by `fetch_frame`; creation
is modelled by the `read_pending` flag and the task's execution by a separate
`refill` trace event, so any asyncio interleaving of producer, consumer and
refill task corresponds to an event order. -/

structure FrameStore where
  live_buffer : List (Option (List Nat))
  disk : Bool
  memory_limit : Nat
  chunk_buffer : List Nat
  chunk_frame_limit : Nat
  chunk_frame_count : Nat
  disk_queue : List Nat
  files : List (Nat × List Nat)
  file_index : Nat
  low_mark : Nat
  high_mark : Nat
  refilling : Bool
  read_pending : Bool
  eos_written : Bool
  eos_emitted : Bool
deriving DecidableEq

/-- `FrameStore.__init__(disk, duration)`.  `duration` is truthy in Python iff it
is neither `None` nor `0`; `frames_per_second = 1000 // FRAME_LENGTH = 50`. -/
def FrameStore.init (disk : Bool) (duration : Option Nat) : FrameStore :=
  let frames_per_second := 1000 / FRAME_LENGTH
  let memory_limit :=
    match duration with
    | some d => if disk && d ≠ 0 then d * frames_per_second else 0
    | none => 0
  { live_buffer := [], disk := disk, memory_limit := memory_limit,
    chunk_buffer := [], chunk_frame_limit := memory_limit, chunk_frame_count := 0,
    disk_queue := [], files := [], file_index := 0,
    low_mark := memory_limit / 4, high_mark := memory_limit,
    refilling := false, read_pending := false,
    eos_written := false, eos_emitted := false }

/-- `FrameStore._flush_chunk`: if the chunk buffer is non-empty, bump
`_file_index`, persist the buffer as `wavecache/{index}.wcf`, append the index
to the disk queue and clear the buffer. -/
def FrameStore.flush_chunk (s : FrameStore) : FrameStore :=
  if s.chunk_buffer.isEmpty then s
  else
    { s with file_index := s.file_index + 1,
             files := s.files ++ [(s.file_index + 1, s.chunk_buffer)],
             disk_queue := s.disk_queue ++ [s.file_index + 1],
             chunk_buffer := [], chunk_frame_count := 0 }

/-- `FrameStore.store_frame`: no-spill mode enqueues directly; spill mode
enqueues while `qsize < high_mark`, otherwise appends the length-prefixed frame
to the chunk buffer and rotates a full chunk to disk; EOS flushes the pending
chunk and enqueues `None` immediately only when nothing is left on disk. -/
def FrameStore.store_frame (s : FrameStore) (frame : Option (List Nat)) : FrameStore :=
  if !s.disk then { s with live_buffer := s.live_buffer ++ [frame] }
  else
    match frame with
    | none =>
        let s1 := { s with eos_written := true }
        let s2 := s1.flush_chunk
        if s2.disk_queue.isEmpty then { s2 with live_buffer := s2.live_buffer ++ [none] }
        else s2
    | some f =>
        if s.live_buffer.length < s.high_mark then
          { s with live_buffer := s.live_buffer ++ [some f] }
        else
          let s1 := { s with chunk_buffer := s.chunk_buffer ++ packUint16BE f.length ++ f,
                             chunk_frame_count := s.chunk_frame_count + 1 }
          if s1.chunk_frame_limit ≤ s1.chunk_frame_count then s1.flush_chunk else s1

/-- The `.wcf` reader loop of `FrameStore._read_chunk`: repeatedly read a 2-byte
big-endian length then that many bytes.  An empty read of the length breaks the
loop; a 1-byte read still yields a length (Python `int.from_bytes` of one byte)
whose data read then returns the empty tail. -/
def parseChunkF : Nat → List Nat → List (List Nat)
  | 0, _ => []
  | _ + 1, [] => []
  | _ + 1, [_] => [[]]
  | fuel + 1, b0 :: b1 :: rest =>
      let len := b0 * 256 + b1
      rest.take len :: parseChunkF fuel (rest.drop len)

/-- Parse a whole chunk file into its frames. -/
def parseChunk (bytes : List Nat) : List (List Nat) := parseChunkF (bytes.length + 1) bytes

/-- Helper: look up a chunk file's bytes by index. -/
def lookupFile (files : List (Nat × List Nat)) (i : Nat) : List Nat :=
  ((files.find? (fun e => e.1 == i)).map Prod.snd).getD []

/-- Helper: delete a chunk file by index. -/
def removeFile (files : List (Nat × List Nat)) (i : Nat) : List (Nat × List Nat) :=
  files.filter (fun e => e.1 != i)

/-- `FrameStore._read_chunk` (the body of one refill task, run to completion):
pop the head chunk index, push its parsed frames onto the live buffer, delete
the file, and enqueue the deferred EOS when this was the last chunk after EOS
was written. -/
def FrameStore.read_chunk (s : FrameStore) : FrameStore :=
  if s.refilling then s
  else
    match s.disk_queue with
    | [] => s
    | idx :: rest =>
        let frames := parseChunk (lookupFile s.files idx)
        let s1 := { s with disk_queue := rest,
                           live_buffer := s.live_buffer ++ frames.map some,
                           files := removeFile s.files idx }
        if rest.isEmpty && s1.eos_written then
          { s1 with live_buffer := s1.live_buffer ++ [none] }
        else s1

/-- What one `fetch_frame` call produces: `value v` is Python `return frame` or
`return None` (`v = none` is the `None` the caller sees), `blocked` means the
call cleared the event latch and is still waiting. -/
inductive FetchResult
  | value (v : Option (List Nat))
  | blocked
deriving DecidableEq

/-- `FrameStore.fetch_frame`: pop the queue head if available (scheduling a
background refill when the level sinks to the low mark with chunks pending);
on an empty queue return `None` whenever EOS is written and no disk chunk or
refill is outstanding - `_eos_emitted` is set on the way but never consulted -
and otherwise wait. -/
def FrameStore.fetch_frame (s : FrameStore) : FetchResult × FrameStore :=
  match s.live_buffer with
  | f :: rest =>
      let s1 := { s with live_buffer := rest }
      let s2 :=
        if s1.disk && rest.length ≤ s1.low_mark && !s1.disk_queue.isEmpty && !s1.refilling
        then { s1 with read_pending := true } else s1
      (.value f, s2)
  | [] =>
      if s.eos_written && s.disk_queue.isEmpty && !s.refilling then
        (.value none, { s with eos_emitted := true })
      else (.blocked, s)

/-- Trace events on one frame store: a producer `store_frame` call, a consumer
`fetch_frame` call, and the event-loop running a refill task that `fetch_frame`
created earlier. -/
inductive StoreEv
  | store (f : Option (List Nat))
  | fetch
  | refill
deriving DecidableEq

/-- Apply one event; `fetch` records its result. -/
def FrameStore.stepEv (s : FrameStore) : StoreEv → FrameStore × Option FetchResult
  | .store f => (s.store_frame f, none)
  | .fetch =>
      let r := s.fetch_frame
      (r.2, some r.1)
  | .refill =>
      if s.read_pending then ({ s.read_chunk with read_pending := false }, none)
      else (s, none)

/-- Run a trace, collecting the `fetch_frame` results in order. -/
def runStore (s : FrameStore) : List StoreEv → FrameStore × List FetchResult
  | [] => (s, [])
  | e :: evs =>
      let step := s.stepEv e
      let rest := runStore step.1 evs
      (rest.1, step.2.toList ++ rest.2)

/-! ## Ogg-Opus parsing (`FFmpegWorker.encode` read loop, `audio/ffmpeg.py`)

The transcoder's stdout is a byte stream; `readexactly(n)` raises
`IncompleteReadError` when fewer than `n` bytes remain, which breaks the page
loop and stores the EOS sentinel.  A page header without the `OggS` magic makes
`encode` return without storing EOS. -/

/-- The bytes of `b"OggS"`. -/
def oggMagic : List Nat := [79, 103, 103, 83]

/-- The bytes of `b"OpusHead"`. -/
def opusHeadBytes : List Nat := [79, 112, 117, 115, 72, 101, 97, 100]

/-- The bytes of `b"OpusTags"`. -/
def opusTagsBytes : List Nat := [79, 112, 117, 115, 84, 97, 103, 115]

/-- `packet_bytes.startswith(b"OpusHead") or packet_bytes.startswith(b"OpusTags")`. -/
def isMetaPacket (p : List Nat) : Bool :=
  p.take 8 == opusHeadBytes || p.take 8 == opusTagsBytes

/-- The `for lacing_value in segment_table` loop: read each segment into the
accumulator; a lacing value `< 255` completes a packet, which is stored unless
it is an `OpusHead`/`OpusTags` packet.  Returns the `store_frame` arguments of
this page and the remaining stream - `none` when a segment read hit EOF.
A trailing accumulator (final lacing `= 255`) is discarded, because the source
re-initialises `current_packet` on the next page. -/
def processSegments : List Nat → List Nat → List Nat →
    List (Option (List Nat)) × Option (List Nat)
  | [], body, _ => ([], some body)
  | lv :: restLac, body, acc =>
      if body.length < lv then ([], none)
      else
        let acc1 := acc ++ body.take lv
        if lv < 255 then
          let stores := if isMetaPacket acc1 then [] else [some acc1]
          let tail := processSegments restLac (body.drop lv) []
          (stores ++ tail.1, tail.2)
        else processSegments restLac (body.drop lv) acc1

/-- The page loop of `FFmpegWorker.encode`, returning the sequence of
`store_frame` arguments (audio packets in stream order, and the final EOS
`none` when the loop ended by EOF rather than by a bad magic).  Each iteration
consumes at least 27 bytes, so `fuel = stream.length + 1` never runs out. -/
def encodePagesF : Nat → List Nat → List (Option (List Nat))
  | 0, _ => []
  | fuel + 1, stream =>
      if stream.length < 27 then [none]
      else
        let header := stream.take 27
        if header.take 4 == oggMagic then
          let segCount := header.getD 26 0
          let rest := stream.drop 27
          if rest.length < segCount then [none]
          else
            let page := processSegments (rest.take segCount) (rest.drop segCount) []
            match page.2 with
            | none => page.1 ++ [none]
            | some rest1 => page.1 ++ encodePagesF fuel rest1
        else []

/-- `FFmpegWorker.encode`'s effect on the frame store, as a function of the
transcoder's output bytes. -/
def ffmpegEncode (stream : List Nat) : List (Option (List Nat)) :=
  encodePagesF (stream.length + 1) stream

/-- The packets the spec says are completed: "for each lacing value read that
many bytes into a current packet accumulator; when a lacing value is < 255,
the packet is complete" - same segment walk, without the header filter. -/
def claimSegments : List Nat → List Nat → List Nat → List (List Nat) × Option (List Nat)
  | [], body, _ => ([], some body)
  | lv :: restLac, body, acc =>
      if body.length < lv then ([], none)
      else
        let acc1 := acc ++ body.take lv
        if lv < 255 then
          let tail := claimSegments restLac (body.drop lv) []
          (acc1 :: tail.1, tail.2)
        else claimSegments restLac (body.drop lv) acc1

/-- Spec-side page walk: `some pkts` lists every completed packet of an
EOF-terminated stream; `none` marks a stream that runs into a bad page magic
(or runs out of fuel), for which the spec's EOF clause does not apply. -/
def claimPagesF : Nat → List Nat → Option (List (List Nat))
  | 0, _ => none
  | fuel + 1, stream =>
      if stream.length < 27 then some []
      else
        let header := stream.take 27
        if header.take 4 == oggMagic then
          let segCount := header.getD 26 0
          let rest := stream.drop 27
          if rest.length < segCount then some []
          else
            let page := claimSegments (rest.take segCount) (rest.drop segCount) []
            match page.2 with
            | none => some page.1
            | some rest1 => (claimPagesF fuel rest1).map (page.1 ++ ·)
        else none

/-- All packets completed by the lacing rule over an EOF-terminated stream. -/
def oggCompletedPackets (stream : List Nat) : Option (List (List Nat)) :=
  claimPagesF (stream.length + 1) stream

/-! ## Encoder pool (`FFmpegPool`) -/

/-- The counters of `FFmpegPool`: `_max = min(max_global, os.cpu_count() *
max_per_core)`, `_total`, `_min = 0`, plus the sizes of the `_available` queue
and `_unavailable` set. -/
structure FFmpegPool where
  enabled : Bool
  maxTotal : Nat
  total : Nat
  minTotal : Nat
  available : Nat
  unavailable : Nat
deriving DecidableEq

/-- `FFmpegPool.__init__`. -/
def FFmpegPool.init (cpu_count max_per_core max_global : Nat) : FFmpegPool :=
  { enabled := true, maxTotal := min max_global (cpu_count * max_per_core),
    total := 0, minTotal := 0, available := 0, unavailable := 0 }

/-- Pool events: `submitNew` is a `submit` call taking the spawn branch (available
queue empty and `total < max`; otherwise it blocks on `_available.get()` and is a
no-op here), `submitReuse` a `submit` that obtained a worker from the available
queue, `workerDone` the `finally` block of `_run`, and `stopAll` is `stop()`. -/
inductive PoolEv
  | submitNew
  | submitReuse
  | workerDone
  | stopAll
deriving DecidableEq

/-- One pool event.  `submit`'s check-then-increment runs without an `await`
between, so it is atomic under the asyncio scheduler. -/
def FFmpegPool.step (p : FFmpegPool) : PoolEv → FFmpegPool
  | .submitNew =>
      if p.enabled && p.available == 0 && p.total < p.maxTotal then
        { p with total := p.total + 1, unavailable := p.unavailable + 1 }
      else p
  | .submitReuse =>
      if p.enabled && 0 < p.available then
        { p with available := p.available - 1, unavailable := p.unavailable + 1 }
      else p
  | .workerDone =>
      if 0 < p.unavailable then
        let p1 := { p with unavailable := p.unavailable - 1 }
        if p1.minTotal < p1.total then { p1 with total := p1.total - 1 }
        else { p1 with available := p1.available + 1 }
      else p
  | .stopAll => { p with enabled := false, available := 0, unavailable := 0, total := 0 }

/-! ## Encryption-mode negotiation (`VoiceConnection._websocket_message`, `Ready`)

The set of supported modes is `getattr(EncryptionMode, mode, None)` over the
attributes of the `EncryptionMode` class (an external module of the project),
so it is modelled as an abstract predicate `supported`. -/

inductive VoiceError
  | encryptionModeNotSupported
deriving DecidableEq

/-- The `for mode in data.modes` loop: keep the first advertised mode the
implementation supports. -/
def selectEncryptionMode (supported : String → Bool) : List String → Option String
  | [] => none
  | m :: rest => if supported m then some m else selectEncryptionMode supported rest

/-- The `Ready` handler's negotiation: first supported mode in server order, or
`EncryptionModeNotSupportedError` when the loop leaves `self._mode` unset. -/
def readyHandleModes (supported : String → Bool) (modes : List String) :
    Except VoiceError String :=
  match selectEncryptionMode supported modes with
  | some m => Except.ok m
  | none => Except.error VoiceError.encryptionModeNotSupported

/-! ## Concrete inputs used by the code-bug exhibits and witnesses -/

/-- A spill-mode trace (`disk = True`, `duration = 1`, so `memory_limit = 50`,
`low_mark = 12`, `high_mark = 50`): the producer stores packets `[1]`..`[100]`
(the last fifty spill to one chunk file), the consumer fetches 38 packets,
which arms a refill at the low mark; the producer then stores `[101]`, the
event loop runs the refill, and the consumer drains the store. -/
def c1Trace : List StoreEv :=
  (List.range 100).map (fun i => StoreEv.store (some [i + 1]))
    ++ List.replicate 38 StoreEv.fetch
    ++ [StoreEv.store (some [101]), StoreEv.refill]
    ++ List.replicate 63 StoreEv.fetch

/-- One minimal Ogg page: magic, 22 don't-care header bytes, one segment, its
lacing value, the payload (shorter than 255 bytes). -/
def oggPage (payload : List Nat) : List Nat :=
  oggMagic ++ List.replicate 22 0 ++ [1] ++ [payload.length] ++ payload

/-- An Ogg-Opus stream whose first two packets are the `OpusHead` and `OpusTags`
headers, followed by one audio packet, then EOF. -/
def demoOggStream : List Nat :=
  oggPage opusHeadBytes ++ oggPage opusTagsBytes ++ oggPage [10, 11, 12]

/-! ## Helper lemmas -/

theorem packUint32BE_length (n : Nat) : (packUint32BE n).length = 4 := rfl

/-- Splitting a list at four bytes from the end. -/
theorem take_drop_at_tail4 (M P : List Nat) (hP : P.length = 4) :
    (M ++ P).take ((M ++ P).length - 4) = M ∧ (M ++ P).drop ((M ++ P).length - 4) = P := by
  have hlen : (M ++ P).length - 4 = M.length := by
    simp [List.length_append, hP]
  rw [hlen]
  exact ⟨List.take_left M P, List.drop_left M P⟩

theorem selectEncryptionMode_eq_find (supported : String → Bool) (modes : List String) :
    selectEncryptionMode supported modes = modes.find? supported := by
  induction modes with
  | nil => rfl
  | cons m rest ih =>
      by_cases h : supported m = true <;>
        simp [selectEncryptionMode, List.find?_cons, h, ih]

theorem send_silence_eq :
    send_silence = List.replicate 5 (Udp.silence [0xF8, 0xFF, 0xFE]) := by decide

/-- Dissecting an encrypted packet `header ++ (middle ++ 4-byte tail)` the way
the spec's decryption procedure does. -/
theorem rtpsizeDecode_append (aead : AeadScheme) (key H M : List Nat) (c : Nat)
    (hH : H.length = 12) :
    rtpsizeDecode aead key (H ++ (M ++ packUint32BE c)) = aead.dec key (xchachaNonce c) H M := by
  have h1 : (H ++ (M ++ packUint32BE c)).take 12 = H := by
    rw [← hH]; exact List.take_left H _
  have h2 : (H ++ (M ++ packUint32BE c)).drop 12 = M ++ packUint32BE c := by
    rw [← hH]; exact List.drop_left H _
  have h3 := take_drop_at_tail4 M (packUint32BE c) (packUint32BE_length c)
  simp only [rtpsizeDecode, h1, h2, h3.1, h3.2, xchachaNonce]

/-! ## Claim theorems -/

/-- Claim C6: for every player state, the generated RTP header is exactly 12
bytes, with byte 0 = `0x80`, byte 1 = `0x78`, bytes 2-3 the sequence as u16 BE,
bytes 4-7 the timestamp as u32 BE, and bytes 8-11 the ssrc as u32 BE. -/
theorem rtp_header_layout (sequence timestamp ssrc : Nat)
    (hseq : sequence < BIT_16U) (hts : timestamp < BIT_32U) (hssrc : ssrc < BIT_32U) :
    (generate_rtp sequence timestamp ssrc).length = 12 ∧
    (generate_rtp sequence timestamp ssrc).getD 0 0 = 0x80 ∧
    (generate_rtp sequence timestamp ssrc).getD 1 0 = 0x78 ∧
    (generate_rtp sequence timestamp ssrc).getD 2 0 * 256
      + (generate_rtp sequence timestamp ssrc).getD 3 0 = sequence ∧
    (generate_rtp sequence timestamp ssrc).getD 4 0 * 16777216
      + (generate_rtp sequence timestamp ssrc).getD 5 0 * 65536
      + (generate_rtp sequence timestamp ssrc).getD 6 0 * 256
      + (generate_rtp sequence timestamp ssrc).getD 7 0 = timestamp ∧
    (generate_rtp sequence timestamp ssrc).getD 8 0 * 16777216
      + (generate_rtp sequence timestamp ssrc).getD 9 0 * 65536
      + (generate_rtp sequence timestamp ssrc).getD 10 0 * 256
      + (generate_rtp sequence timestamp ssrc).getD 11 0 = ssrc := by
  simp only [BIT_16U] at hseq
  simp only [BIT_32U] at hts hssrc
  have e2 : (generate_rtp sequence timestamp ssrc).getD 2 0 = sequence / 256 % 256 := rfl
  have e3 : (generate_rtp sequence timestamp ssrc).getD 3 0 = sequence % 256 := rfl
  have e4 : (generate_rtp sequence timestamp ssrc).getD 4 0 = timestamp / 16777216 % 256 := rfl
  have e5 : (generate_rtp sequence timestamp ssrc).getD 5 0 = timestamp / 65536 % 256 := rfl
  have e6 : (generate_rtp sequence timestamp ssrc).getD 6 0 = timestamp / 256 % 256 := rfl
  have e7 : (generate_rtp sequence timestamp ssrc).getD 7 0 = timestamp % 256 := rfl
  have e8 : (generate_rtp sequence timestamp ssrc).getD 8 0 = ssrc / 16777216 % 256 := rfl
  have e9 : (generate_rtp sequence timestamp ssrc).getD 9 0 = ssrc / 65536 % 256 := rfl
  have e10 : (generate_rtp sequence timestamp ssrc).getD 10 0 = ssrc / 256 % 256 := rfl
  have e11 : (generate_rtp sequence timestamp ssrc).getD 11 0 = ssrc % 256 := rfl
  refine ⟨rfl, rfl, rfl, ?_, ?_, ?_⟩
  · rw [e2, e3]; omega
  · rw [e4, e5, e6, e7]; omega
  · rw [e8, e9, e10, e11]; omega

/-- Witness for C6 at sequence `0xABCD`, timestamp `0x01020304`, ssrc `0x0A0B0C0D`. -/
theorem rtp_header_layout_witness :
    0xABCD < BIT_16U ∧ 0x01020304 < BIT_32U ∧ 0x0A0B0C0D < BIT_32U ∧
    ((generate_rtp 0xABCD 0x01020304 0x0A0B0C0D).length = 12 ∧
     (generate_rtp 0xABCD 0x01020304 0x0A0B0C0D).getD 0 0 = 0x80 ∧
     (generate_rtp 0xABCD 0x01020304 0x0A0B0C0D).getD 1 0 = 0x78 ∧
     (generate_rtp 0xABCD 0x01020304 0x0A0B0C0D).getD 2 0 * 256
       + (generate_rtp 0xABCD 0x01020304 0x0A0B0C0D).getD 3 0 = 0xABCD ∧
     (generate_rtp 0xABCD 0x01020304 0x0A0B0C0D).getD 4 0 * 16777216
       + (generate_rtp 0xABCD 0x01020304 0x0A0B0C0D).getD 5 0 * 65536
       + (generate_rtp 0xABCD 0x01020304 0x0A0B0C0D).getD 6 0 * 256
       + (generate_rtp 0xABCD 0x01020304 0x0A0B0C0D).getD 7 0 = 0x01020304 ∧
     (generate_rtp 0xABCD 0x01020304 0x0A0B0C0D).getD 8 0 * 16777216
       + (generate_rtp 0xABCD 0x01020304 0x0A0B0C0D).getD 9 0 * 65536
       + (generate_rtp 0xABCD 0x01020304 0x0A0B0C0D).getD 10 0 * 256
       + (generate_rtp 0xABCD 0x01020304 0x0A0B0C0D).getD 11 0 = 0x0A0B0C0D) :=
  ⟨by decide, by decide, by decide,
   rtp_header_layout 0xABCD 0x01020304 0x0A0B0C0D (by decide) (by decide) (by decide)⟩

/-- Claim C3: under `aead_xchacha20_poly1305_rtpsize`, the wire layout of the
encrypted packet is `rtp_header ++ ciphertext ++ auth_tag ++ nonce prefix
(4 bytes BE)`, and AEAD decryption with the same key, the trailing 4-byte
prefix extended to 24 bytes by a zero tail as nonce, and the header as
associated data recovers the original Opus payload.  The AEAD primitive is the
external libsodium scheme, abstracted as `aead`; its decrypt-of-encrypt law at
this key/nonce/header/payload is the hypothesis `hdec`. -/
theorem aead_rtpsize_encrypt_decrypt (aead : AeadScheme) (key header audio : List Nat)
    (c : Nat) (hheader : header.length = 12)
    (hdec : aead.dec key (xchachaNonce c) header
        (aead.encC key (xchachaNonce c) header audio
          ++ aead.encT key (xchachaNonce c) header audio) = some audio) :
    (encrypt_aead_xchacha20_poly1305_rtpsize aead key c header audio).1
      = header ++ aead.encC key (xchachaNonce c) header audio
          ++ aead.encT key (xchachaNonce c) header audio ++ packUint32BE c ∧
    rtpsizeDecode aead key
        (encrypt_aead_xchacha20_poly1305_rtpsize aead key c header audio).1 = some audio := by
  refine ⟨rfl, ?_⟩
  have hpkt : (encrypt_aead_xchacha20_poly1305_rtpsize aead key c header audio).1
      = header ++ ((aead.encC key (xchachaNonce c) header audio
          ++ aead.encT key (xchachaNonce c) header audio) ++ packUint32BE c) := by
    simp [encrypt_aead_xchacha20_poly1305_rtpsize, List.append_assoc]
  rw [hpkt, rtpsizeDecode_append aead key header _ c hheader]
  exact hdec

/-- Witness for C3 at a concrete AEAD instance (identity ciphertext, one-byte
tag, decryption dropping the tag), a 12-byte header from `_generate_rtp`,
payload `[9, 9]` and nonce counter 5. -/
theorem aead_rtpsize_encrypt_decrypt_witness :
    ((generate_rtp 1 2 3).length = 12 ∧
     (AeadScheme.mk (fun _ _ _ m => m) (fun _ _ _ _ => [0])
        (fun _ _ _ x => some (x.dropLast))).dec [4] (xchachaNonce 5) (generate_rtp 1 2 3)
        ((AeadScheme.mk (fun _ _ _ m => m) (fun _ _ _ _ => [0])
            (fun _ _ _ x => some (x.dropLast))).encC [4] (xchachaNonce 5) (generate_rtp 1 2 3) [9, 9]
          ++ (AeadScheme.mk (fun _ _ _ m => m) (fun _ _ _ _ => [0])
              (fun _ _ _ x => some (x.dropLast))).encT [4] (xchachaNonce 5) (generate_rtp 1 2 3) [9, 9])
        = some [9, 9]) ∧
    ((encrypt_aead_xchacha20_poly1305_rtpsize
        (AeadScheme.mk (fun _ _ _ m => m) (fun _ _ _ _ => [0])
          (fun _ _ _ x => some (x.dropLast))) [4] 5 (generate_rtp 1 2 3) [9, 9]).1
      = generate_rtp 1 2 3
          ++ (AeadScheme.mk (fun _ _ _ m => m) (fun _ _ _ _ => [0])
              (fun _ _ _ x => some (x.dropLast))).encC [4] (xchachaNonce 5) (generate_rtp 1 2 3) [9, 9]
          ++ (AeadScheme.mk (fun _ _ _ m => m) (fun _ _ _ _ => [0])
              (fun _ _ _ x => some (x.dropLast))).encT [4] (xchachaNonce 5) (generate_rtp 1 2 3) [9, 9]
          ++ packUint32BE 5 ∧
     rtpsizeDecode
        (AeadScheme.mk (fun _ _ _ m => m) (fun _ _ _ _ => [0])
          (fun _ _ _ x => some (x.dropLast))) [4]
        (encrypt_aead_xchacha20_poly1305_rtpsize
          (AeadScheme.mk (fun _ _ _ m => m) (fun _ _ _ _ => [0])
            (fun _ _ _ x => some (x.dropLast))) [4] 5 (generate_rtp 1 2 3) [9, 9]).1
        = some [9, 9]) :=
  ⟨⟨by decide, by decide⟩,
   aead_rtpsize_encrypt_decrypt
     (AeadScheme.mk (fun _ _ _ m => m) (fun _ _ _ _ => [0]) (fun _ _ _ x => some (x.dropLast)))
     [4] (generate_rtp 1 2 3) [9, 9] 5 (by decide) (by decide)⟩

/-- Claim C7: on a `Ready` payload the connection selects the first
server-advertised mode the implementation supports; when no advertised mode is
supported the handler fails with `EncryptionModeNotSupported`.  The support set
(the attributes of the external `EncryptionMode` class probed by `getattr`) is
the abstract predicate `supported`. -/
theorem ready_mode_negotiation (supported : String → Bool) (modes : List String) :
    readyHandleModes supported modes =
      (match modes.find? supported with
       | some m => Except.ok m
       | none => Except.error VoiceError.encryptionModeNotSupported) ∧
    ((∀ m ∈ modes, supported m = false) →
      readyHandleModes supported modes = Except.error VoiceError.encryptionModeNotSupported) := by
  constructor
  · simp only [readyHandleModes, selectEncryptionMode_eq_find supported modes]
  · intro hall
    have hnone : modes.find? supported = none := List.find?_eq_none.mpr (by
      intro m hm
      simp [hall m hm])
    simp only [readyHandleModes, selectEncryptionMode_eq_find supported modes, hnone]

/-- Claim C9: for every trace of submit and worker-completion events, the pool's
`_total` never exceeds `min(max_global, cpu_count * max_per_core)`. -/
theorem pool_total_bounded (cpu_count max_per_core max_global : Nat) (evs : List PoolEv) :
    (evs.foldl FFmpegPool.step (FFmpegPool.init cpu_count max_per_core max_global)).total
      ≤ min max_global (cpu_count * max_per_core) := by
  have key : ∀ (evs : List PoolEv) (p : FFmpegPool),
      (evs.foldl FFmpegPool.step p).maxTotal = p.maxTotal ∧
      (p.total ≤ p.maxTotal → (evs.foldl FFmpegPool.step p).total ≤ p.maxTotal) := by
    intro evs
    induction evs with
    | nil => exact fun p => ⟨rfl, fun h => h⟩
    | cons e rest ih =>
        intro p
        have hstep : (FFmpegPool.step p e).maxTotal = p.maxTotal ∧
            (p.total ≤ p.maxTotal → (FFmpegPool.step p e).total ≤ p.maxTotal) := by
          cases e with
          | submitNew => simp only [FFmpegPool.step]; split_ifs <;> simp_all <;> omega
          | submitReuse => simp only [FFmpegPool.step]; split_ifs <;> simp_all
          | workerDone => simp only [FFmpegPool.step]; split_ifs <;> simp_all <;> omega
          | stopAll => exact ⟨rfl, fun _ => Nat.zero_le _⟩
        have := ih (FFmpegPool.step p e)
        refine ⟨by rw [List.foldl_cons, this.1, hstep.1], fun h => ?_⟩
        rw [List.foldl_cons]
        have h2 := this.2 (by rw [hstep.1]; exact hstep.2 h)
        rw [hstep.1] at h2
        exact h2

  have h := key evs (FFmpegPool.init cpu_count max_per_core max_global)
  exact h.2 (by simp [FFmpegPool.init])

/-- Claim C10: every silence burst the player sends - on entering pause and at
track end - is five raw `F8 FF FE` payloads written directly to the UDP
transport with no RTP header and no encryption, and it leaves the sequence,
timestamp and nonce counters exactly as they were. -/
theorem silence_frames_raw (aead : AeadScheme) (key : List Nat) (ssrc : Nat)
    (s : PlayerState) (evs : List PlayerEv) :
    send_silence = List.replicate 5 (Udp.silence [0xF8, 0xFF, 0xFE]) ∧
    runPlayer aead key ssrc s (PlayerEv.pauseWait :: evs)
      = ((runPlayer aead key ssrc s evs).1,
         List.replicate 5 (Udp.silence [0xF8, 0xFF, 0xFE]) ++ (runPlayer aead key ssrc s evs).2) ∧
    runPlayer aead key ssrc s (PlayerEv.trackEnd :: evs)
      = ((runPlayer aead key ssrc s evs).1,
         List.replicate 5 (Udp.silence [0xF8, 0xFF, 0xFE]) ++ (runPlayer aead key ssrc s evs).2) := by
  refine ⟨send_silence_eq, ?_, ?_⟩ <;>
    simp [runPlayer, playerStep, send_silence_eq]

theorem filterMap_audioMeta_send_silence : send_silence.filterMap audioMeta = [] := by decide

/-- The first audio frame sent after reaching state `s` carries exactly `s`'s
counter values, whatever non-sending events happen before it. -/
theorem runPlayer_audio_head (aead : AeadScheme) (key : List Nat) (ssrc : Nat) :
    ∀ (evs : List PlayerEv) (s : PlayerState),
      ∀ x ∈ (((runPlayer aead key ssrc s evs).2).filterMap audioMeta).head?,
        x = (s.sequence, s.timestamp, s.nonce) := by
  intro evs
  induction evs with
  | nil => intro s x hx; simp [runPlayer] at hx
  | cons e rest ih =>
      intro s x hx
      cases e with
      | frame opus =>
          simp only [runPlayer, playerStep, List.filterMap_append, List.filterMap_cons,
            audioMeta, List.filterMap_nil, List.singleton_append, List.head?_cons,
            Option.mem_def, Option.some.injEq] at hx
          exact hx.symm
      | pauseWait =>
          simp only [runPlayer, playerStep, List.filterMap_append,
            filterMap_audioMeta_send_silence, List.nil_append] at hx
          exact ih s x hx
      | trackStart =>
          simp only [runPlayer, playerStep, List.filterMap_append, List.filterMap_nil,
            List.nil_append] at hx
          exact ih s x hx
      | trackEnd =>
          simp only [runPlayer, playerStep, List.filterMap_append,
            filterMap_audioMeta_send_silence, List.nil_append] at hx
          exact ih s x hx

/-- Claim C2: over any trace of one player session - audio frames, pauses and
track boundaries in any order - the counter values carried by consecutive UDP
audio sends always step by `+1 mod 2^16` (sequence), `+960 mod 2^32`
(timestamp) and `+1 mod 2^32` (nonce counter); track boundaries do not reset
them, so the progression continues across tracks. -/
theorem rtp_counter_progression (aead : AeadScheme) (key : List Nat) (ssrc : Nat)
    (evs : List PlayerEv) (s : PlayerState) :
    List.Chain' counterStep (((runPlayer aead key ssrc s evs).2).filterMap audioMeta) := by
  induction evs generalizing s with
  | nil => simp [runPlayer]
  | cons e rest ih =>
      cases e with
      | frame opus =>
          simp only [runPlayer, playerStep, List.filterMap_append, List.filterMap_cons,
            audioMeta, List.filterMap_nil, List.singleton_append]
          rw [List.chain'_cons']
          constructor
          · intro y hy
            have hy2 := runPlayer_audio_head aead key ssrc rest _ y hy
            rw [hy2]
            exact ⟨rfl, rfl, rfl⟩
          · exact ih _
      | pauseWait =>
          simp only [runPlayer, playerStep, List.filterMap_append,
            filterMap_audioMeta_send_silence, List.nil_append]
          exact ih s
      | trackStart =>
          simp only [runPlayer, playerStep, List.filterMap_append, List.filterMap_nil,
            List.nil_append]
          exact ih s
      | trackEnd =>
          simp only [runPlayer, playerStep, List.filterMap_append,
            filterMap_audioMeta_send_silence, List.nil_append]
          exact ih s

/-- Per page, the source's segment walk stores exactly the completed packets of
the spec's walk, minus the `OpusHead`/`OpusTags` packets, in order, and leaves
the same remaining stream. -/
theorem processSegments_eq_claim : ∀ (table body acc : List Nat),
    processSegments table body acc =
      (((claimSegments table body acc).1.filter (fun p => !isMetaPacket p)).map some,
       (claimSegments table body acc).2) := by
  intro table
  induction table with
  | nil => intro body acc; rfl
  | cons lv restLac ih =>
      intro body acc
      simp only [processSegments, claimSegments]
      split_ifs with h1 h2 hm
      · rfl
      · rw [ih]
        simp [List.filter_cons, hm]
      · rw [ih]
        simp [List.filter_cons, hm]
      · exact ih _ _

/-- The page loop refines the spec-side walk on every EOF-terminated stream:
deliver the completed packets that are not headers, in order, then EOS. -/
theorem encodePagesF_eq_claim : ∀ (fuel : Nat) (stream : List Nat) (pkts : List (List Nat)),
    claimPagesF fuel stream = some pkts →
    encodePagesF fuel stream = (pkts.filter (fun p => !isMetaPacket p)).map some ++ [none] := by
  intro fuel
  induction fuel with
  | zero => intro stream pkts h; exact absurd h (by simp [claimPagesF])
  | succ fuel ih =>
      intro stream pkts h
      simp only [claimPagesF] at h
      simp only [encodePagesF]
      split_ifs at h ⊢ with h27 hmagic hseg
      · cases h; simp
      · cases h; simp
      · rw [processSegments_eq_claim]
        revert h
        cases (claimSegments ((stream.drop 27).take ((stream.take 27).getD 26 0))
            ((stream.drop 27).drop ((stream.take 27).getD 26 0)) []).2 with
        | none =>
            intro h
            dsimp only at h ⊢
            cases h
            simp
        | some rest1 =>
            intro h
            dsimp only at h ⊢
            rcases Option.map_eq_some'.mp h with ⟨pkts1, hp1, rfl⟩
            simp only [ih rest1 pkts1 hp1, List.filter_append, List.map_append,
              List.append_assoc]

/-- Claim C8: for every Ogg-Opus byte stream (every page carrying the `OggS`
magic up to EOF, expressed by `oggCompletedPackets stream = some pkts`), a
packet completes exactly at a lacing value `< 255` (that is the walk defining
`pkts`); the completed packets whose first 8 bytes are `OpusHead` or `OpusTags`
are discarded, all others are delivered to the frame store in stream order, and
at EOF the EOS sentinel is the final delivery. -/
theorem ogg_parse_filter_eos (stream : List Nat) (pkts : List (List Nat))
    (h : oggCompletedPackets stream = some pkts) :
    ffmpegEncode stream = (pkts.filter (fun p => !isMetaPacket p)).map some ++ [none] :=
  encodePagesF_eq_claim (stream.length + 1) stream pkts h

/-- Witness for C8 on a 3-page stream: the `OpusHead` and `OpusTags` packets are
completed but dropped, the audio packet `[10, 11, 12]` is stored, then EOS. -/
theorem ogg_parse_filter_eos_witness :
    oggCompletedPackets demoOggStream = some [opusHeadBytes, opusTagsBytes, [10, 11, 12]] ∧
    ffmpegEncode demoOggStream
      = (([opusHeadBytes, opusTagsBytes, [10, 11, 12]].filter
            (fun p => !isMetaPacket p)).map some) ++ [none] :=
  ⟨by decide,
   ogg_parse_filter_eos demoOggStream [opusHeadBytes, opusTagsBytes, [10, 11, 12]] (by decide)⟩

set_option maxRecDepth 400000 in
/-- Claim C1 exhibit: in spill mode the code violates insertion order.  In
`c1Trace` the packets are stored in the order `[1], ..., [100], [101]`, with
`[51]..[100]` sitting in a disk chunk; after the consumer reaches the low mark,
`store_frame([101])` sees `qsize < high_mark` and appends `[101]` directly to
the live buffer while the chunk is still pending, so `fetch_frame` emits
`[101]` as the 51st packet, before `[51]..[100]` - packets stored earlier. -/
theorem spill_store_reorders_packets :
    (runStore (FrameStore.init true (some 1)) c1Trace).2 =
      ((List.range 50).map (fun i => FetchResult.value (some [i + 1])))
        ++ [FetchResult.value (some [101])]
        ++ ((List.range 50).map (fun i => FetchResult.value (some [i + 51]))) := by
  decide

/-- Claim C4 exhibit: after `p1` then EOS in spill mode, the fetch results are
`p1`, `None`, `None` - the second and third calls both return `None`, because
the `_eos_emitted` flag is assigned but never consulted before the early
`return None` branch, so `None` is not returned exactly once. -/
theorem fetch_frame_returns_none_twice :
    (runStore (FrameStore.init true (some 1))
        [StoreEv.store (some [7]), StoreEv.store none,
         StoreEv.fetch, StoreEv.fetch, StoreEv.fetch]).2
      = [FetchResult.value (some [7]), FetchResult.value none, FetchResult.value none] := by
  decide

/-- Claim C5 exhibit: a track that plays one frame and then completes naturally
(the source is exhausted, `_track_completed` is set) is nevertheless not
appended to history: `_play_internal` never returns `True` (its success path
falls off the function, returning `None`), so `_player_loop`'s condition
`completed or (skip and not ended)` is false. -/
theorem natural_completion_not_appended :
    runTrack [LoopEv.frame, LoopEv.eosFrame] ⟨false, false, false⟩
        = some (none, ⟨false, false, true⟩) ∧
    historyAppend [LoopEv.frame, LoopEv.eosFrame] = some false := by
  decide

end HikariWave
